import Mathlib

/-!
Verification of the API-map core of the easy-k8s repository.

The definitions below are a shallow embedding of `src/apimap.js` and
`src/utils.js`.  JavaScript strings are modelled as Lean `String`
(all inputs of interest are ASCII, where JS UTF-16 code-unit order and
Lean's `Char` codepoint order agree); the relational operators `<` / `>`
on JS strings become lexicographic comparison of the character lists;
a comparison in which one operand is `undefined` is `false` in JS, which
is modelled by an `Option String` wrapper returning `false` when either
side is `none`.  A thrown exception (e.g. `exec(...)[2]` on a failed
regex match) is modelled by an `Option` result with `none` for the
throw.  The module-level mutable object `apiMaps` becomes an explicit
association-list state that every operation takes and returns.
-/

/-- Lexicographic order on character lists, modelling the JS `<` operator
on strings (code-unit comparison; identical to codepoint order here). -/
def charListLt : List Char → List Char → Bool
  | [], [] => false
  | [], _ :: _ => true
  | _ :: _, [] => false
  | a :: as, b :: bs => if a < b then true else if b < a then false else charListLt as bs

/-- JS `a < b` on two strings. -/
def jsStrLt (a b : String) : Bool := charListLt a.data b.data

/-- JS `a > b` on two strings. -/
def jsStrGt (a b : String) : Bool := charListLt b.data a.data

/-- JS `a > b` where either operand may be `undefined` (`none`): any
comparison against `undefined` is `false`. -/
def jsOptStrGt : Option String → Option String → Bool
  | some a, some b => jsStrGt a b
  | _, _ => false

/-- JS `a < b` where either operand may be `undefined` (`none`). -/
def jsOptStrLt : Option String → Option String → Bool
  | some a, some b => jsStrLt a b
  | _, _ => false

/-- The four capture groups of `verRegex = /([a-z]+)([0-9]+)([a-z]+)?([0-9]+)?/`
from `src/apimap.js` line 66: letter run, major digit run, optional minor
stability label, optional minor digit run. -/
structure VerParts where
  run1 : String
  major : String
  minorLabel : Option String
  minorNum : Option String
deriving DecidableEq

/-- The regex character class `[a-z]` (ASCII codepoints 97-122). -/
def isLowerAZ (c : Char) : Bool := 97 ≤ c.toNat && c.toNat ≤ 122

/-- The regex character class `[0-9]` (ASCII codepoints 48-57). -/
def isDigit09 (c : Char) : Bool := 48 ≤ c.toNat && c.toNat ≤ 57

/-- Models `verRegex.exec(s)` from `src/apimap.js` line 66 for inputs that
begin with a lowercase letter (the regex is unsearched-prefix-free on such
inputs; every version token reaching it in the source starts with `v`).
Returns `none` when the regex would not match, in which case the JS code
dereferencing the match throws. -/
def parseVer (s : String) : Option VerParts :=
  let cs := s.data
  let l1 := cs.takeWhile isLowerAZ
  let r1 := cs.dropWhile isLowerAZ
  if l1 = [] then none
  else
    let d1 := r1.takeWhile isDigit09
    let r2 := r1.dropWhile isDigit09
    if d1 = [] then none
    else
      let l2 := r2.takeWhile isLowerAZ
      let r3 := r2.dropWhile isLowerAZ
      let d2 := r3.takeWhile isDigit09
      some { run1 := ⟨l1⟩
             major := ⟨d1⟩
             minorLabel := if l2 = [] then none else some ⟨l2⟩
             minorNum := if l2 = [] then none else if d2 = [] then none else some ⟨d2⟩ }

/-- Comparator `compareAPIVersions` from `src/apimap.js` lines 65-87.  The extracted
capture groups are JS *strings*; the source compares them with the raw
`<` / `>` operators, so digit runs are compared lexicographically, and a
comparison involving an absent (undefined) group is always false.
Returns `none` when either token fails to match the regex (the JS code
then throws a TypeError on the null match object). -/
def compareAPIVersions (ver1 ver2 : String) : Option Int :=
  match parseVer ver1, parseVer ver2 with
  | some p1, some p2 =>
    if jsStrGt p1.major p2.major then some 1
    else if jsStrLt p1.major p2.major then some (-1)
    else if p1.minorLabel = some "beta" ∧ p2.minorLabel = some "alpha" then some 1
    else if p1.minorLabel = some "alpha" ∧ p2.minorLabel = some "beta" then some (-1)
    else if jsOptStrGt p1.minorNum p2.minorNum then some 1
    else if jsOptStrLt p1.minorNum p2.minorNum then some (-1)
    else some 0
  | _, _ => none

/-- JS `String.prototype.split` with a one-character separator:
`"".split(c)` is `[""]`, a trailing separator yields a trailing empty
group. -/
def splitOnChar (c : Char) : List Char → List (List Char)
  | [] => [[]]
  | x :: xs =>
    if x = c then [] :: splitOnChar c xs
    else
      match splitOnChar c xs with
      | [] => [[x]]
      | g :: gs => (x :: g) :: gs

/-- Join character-list groups with a one-character separator (the
inverse direction, used for the `pretty` accumulation loop). -/
def joinWith (c : Char) : List (List Char) → List Char
  | [] => []
  | [g] => g
  | g :: gs => g ++ c :: joinWith c gs

/-- Whether `s` matches the anchored sub-pattern `v[0-9]+([a-z]+[0-9]+)?$`
(the second capture group of `extractVerRegex`, `src/apimap.js` line 22)
in its entirety. -/
def matchVPat (s : String) : Bool :=
  match s.data with
  | [] => false
  | c :: rest =>
    if c = 'v' then
      let d1 := rest.takeWhile isDigit09
      let r1 := rest.dropWhile isDigit09
      if d1 = [] then false
      else if r1 = [] then true
      else
        let l2 := r1.takeWhile isLowerAZ
        let r2 := r1.dropWhile isLowerAZ
        !l2.isEmpty && !r2.isEmpty && r2.all isDigit09
    else false

/-- Models `extractVerRegex.exec(groupVer)[2]` with
`extractVerRegex = /^([^\x2f]+\/)?(v[0-9]+([a-z]+[0-9]+)?)$/`
(`src/apimap.js` lines 22-23): an optional nonempty slash-free group name
followed by `/`, then the version token, anchored at both ends.  `none`
models the TypeError thrown on a failed match. -/
def extractVer (groupVer : String) : Option String :=
  match splitOnChar '/' groupVer.data with
  | [s] => if matchVPat ⟨s⟩ then some (⟨s⟩ : String) else none
  | [g, s] => if g = [] then none else if matchVPat ⟨s⟩ then some (⟨s⟩ : String) else none
  | _ => none

/-- One resource descriptor of a discovery response (`resource` in the
loop of `mapGroupResources`). -/
structure ResourceDesc where
  name : String
  namespaced : Bool
deriving DecidableEq

/-- A cached per-resource entry: `{version, namespaced}` as stored in
`apiMaps[clusterVer][name]` (`src/apimap.js` lines 47-50). -/
structure GroupInfo where
  version : String
  namespaced : Bool
deriving DecidableEq

/-- One cluster version's resource-name → entry mapping, as an ordered
association list (JS objects preserve insertion order; overwriting keeps
the position). -/
abbrev ResourceMap := List (String × GroupInfo)

/-- The module-level `apiMaps` object: cluster version key → ResourceMap. -/
abbrev ApiMaps := List (String × ResourceMap)

/-- Property read `obj[k]` on the association-list model. -/
def getKey {α : Type} : List (String × α) → String → Option α
  | [], _ => none
  | (k, v) :: rest, key => if k = key then some v else getKey rest key

/-- Property write `obj[k] = v`: overwrite in place, else append. -/
def setKey {α : Type} : List (String × α) → String → α → List (String × α)
  | [], key, v => [(key, v)]
  | (k, w) :: rest, key, v => if k = key then (key, v) :: rest else (k, w) :: setKey rest key v

/-- The guard on `src/apimap.js` line 42:
`currGroupVer && preferredGroupVer && currGroupVer === preferredGroupVer`.
`pref = none` models calling `mapGroupResources` without the third
argument (the core-group call, line 160); `some ""` is falsy in JS, hence
the emptiness test.  `currGroupVer` itself is necessarily nonempty here
because its regex extraction has already succeeded. -/
def prefMatches (pref : Option String) (currGroupVer : String) : Bool :=
  match pref with
  | some p => !(p == "") && currGroupVer == p
  | none => false

/-- A `/apis/[group]/[version]` response body as far as the map builder
reads it: `{groupVersion, resources}`. -/
structure DiscoveryResponse where
  groupVersion : String
  resources : List ResourceDesc
deriving DecidableEq

/-- The body of the `for (const resource of resources)` loop of
`mapGroupResources` (`src/apimap.js` lines 28-52) applied to one
descriptor.  `none` models a thrown TypeError (failed regex extraction of
the currently stored group version, line 38). -/
def foldResource (m : ResourceMap) (groupVer ver : String) (pref : Option String)
    (r : ResourceDesc) : Option ResourceMap :=
  if r.name.data.contains '/' then some m
  else
    match getKey m r.name with
    | none => some (setKey m r.name ⟨groupVer, r.namespaced⟩)
    | some curr =>
      match extractVer curr.version with
      | none => none
      | some currVer =>
        if prefMatches pref curr.version then some m
        else
          match compareAPIVersions currVer ver with
          | none => none
          | some c => if c < 0 then some (setKey m r.name ⟨groupVer, r.namespaced⟩) else some m

/-- The whole descriptor loop, threading the per-cluster map. -/
def foldResources (m : ResourceMap) (groupVer ver : String) (pref : Option String) :
    List ResourceDesc → Option ResourceMap
  | [] => some m
  | r :: rs =>
    match foldResource m groupVer ver pref r with
    | none => none
    | some m1 => foldResources m1 groupVer ver pref rs

/-- Fold `mapGroupResources` (`src/apimap.js` lines 20-55) as a state
transformer on the `apiMaps` cache.  Line 26 creates the per-cluster
object when absent; `none` models a thrown TypeError (malformed
`resourcesResp.groupVersion` at line 23, or a malformed stored version
inside the loop). -/
def mapGroupResources (maps : ApiMaps) (clusterVer : String) (resp : DiscoveryResponse)
    (pref : Option String) : Option ApiMaps :=
  match extractVer resp.groupVersion with
  | none => none
  | some ver =>
    let m := (getKey maps clusterVer).getD []
    match foldResources m resp.groupVersion ver pref resp.resources with
    | none => none
    | some m1 => some (setKey maps clusterVer m1)

/-- The three possible shapes of a `getGroupInfo` result: a single
resource entry, the whole per-cluster map (the degrade-to-dump fallback),
or `undefined`. -/
inductive LookupResult
  | info (g : GroupInfo)
  | all (m : ResourceMap)
  | absent
deriving DecidableEq

/-- Guards of `getGroupInfo` (`src/apimap.js` lines 100-125).  The `typeof`
string checks are discharged by the Lean types; the remaining JS
truthiness guards on the two string arguments are the emptiness tests
(an empty string is falsy, lines 101-102). -/
def jsToLower (s : String) : String := ⟨s.data.map Char.toLower⟩

/-- Lookup operation, `src/apimap.js` lines 100-125: exact match, then
one pluralization retry, then the whole per-cluster map, and `absent`
for a cluster version that has no cache entry. -/
def getGroupInfo (maps : ApiMaps) (clusterVersion resourceType : String) : LookupResult :=
  if clusterVersion = "" then .absent
  else if resourceType = "" then .absent
  else
    let rt := jsToLower resourceType
    match getKey maps clusterVersion with
    | none => .absent
    | some m =>
      match getKey m rt with
      | some g => .info g
      | none =>
        match getKey m (rt ++ "s") with
        | some g => .info g
        | none => .all m

/-- Function `removeTrailingSlash` (`src/utils.js` lines 37-41).  The source
computes `url.substr(0, url.length - 1)` when the last character is a
slash but never assigns the result, so the function returns its argument
unchanged; `_stripped` mirrors the discarded expression. -/
def removeTrailingSlash (url : String) : String :=
  let _stripped :=
    if url.data.getLast? = some '/' then String.mk url.data.dropLast else url
  url

/-- Function `prettifyVersion` (`src/utils.js` lines 51-63): split on `.`, strip a
leading `v` from the first component, join the first `precision`
components.  `precision = none` models omitting the argument; JS
`if (!precision) precision = 3` also resets an explicit `0`. -/
def prettifyVersion (verStr : String) (precision : Option Nat) : String :=
  let p := match precision with
    | none => 3
    | some 0 => 3
    | some q => q
  let arr := splitOnChar '.' verStr.data
  let arr := match arr with
    | a :: rest =>
      (match a with
       | 'v' :: t => t
       | _ => a) :: rest
    | [] => []
  ⟨joinWith '.' (arr.take p)⟩

/-- The `response` field an axios error may carry (`src/utils.js`
lines 11-19): HTTP status, status text and response body. -/
structure AxiosResponse where
  status : Nat
  statusText : String
  data : String
deriving DecidableEq

/-- An error raised by an axios call: a message plus an optional server
response. -/
structure AxiosErr where
  message : String
  response : Option AxiosResponse
deriving DecidableEq

/-- The normalized error produced by `axiosHandler`: message, statusCode
and optional metadata. -/
structure JsError where
  message : String
  statusCode : Nat
  metadata : Option String
deriving DecidableEq

/-- Function `axiosHandler` (`src/utils.js` lines 10-28). -/
def axiosHandler (e : AxiosErr) : JsError :=
  match e.response with
  | some r => { message := r.statusText, statusCode := r.status, metadata := some r.data }
  | none => { message := e.message, statusCode := 500, metadata := none }

/-- The error collected when `mapGroupResources` itself throws inside a
group request's `then` (the per-request `catch` at `src/apimap.js`
lines 161-163 and 178-180 feeds the TypeError, which has no `response`
field, through `axiosHandler`). -/
def foldCrashError : JsError :=
  { message := "TypeError", statusCode := 500, metadata := none }

/-- One `group.versions` element together with the outcome of the
`/apis/[groupVersion]` fetch for it (the network is external, so the
fetch outcome is an input of the model). -/
structure GroupVersionEntry where
  groupVersion : String
  fetch : Except AxiosErr DiscoveryResponse

/-- One element of the `/apis` group list:
`{preferredVersion: {groupVersion}, versions: [...]}`. -/
structure ApiGroupEntry where
  preferredGroupVersion : String
  versions : List GroupVersionEntry

/-- The external world `buildAPIMap` interacts with: the outcome of the
`getVersion` call (its `gitVersion` on success), of the `/api/v1` core
fetch, and of the `/apis` group-list fetch. -/
structure ClusterEnv where
  versionFetch : Except AxiosErr String
  coreFetch : Except AxiosErr DiscoveryResponse
  groupsFetch : Except AxiosErr (List ApiGroupEntry)

/-- How the promise returned by `buildAPIMap` settles: `fatal e` is a
rejection with a single error (version detection or the `/apis` listing
failed, `src/apimap.js` lines 187-188), `withErrs errs` is the rejection
`throw errs` at line 190 when at least one per-group-version failure was
collected, and `success` is the resolution with `apiMaps[clusterVer]`
(possibly undefined) at line 191. -/
inductive BuildOutcome
  | fatal (e : JsError)
  | withErrs (errs : List JsError)
  | success (m : Option ResourceMap)
deriving DecidableEq

/-- One group-version request: on fetch failure collect the normalized
error; on success fold the response, collecting the TypeError if the
fold throws (both via the per-request `catch`). -/
def processFetch (maps : ApiMaps) (clusterVer : String) (pref : Option String)
    (fetch : Except AxiosErr DiscoveryResponse) : ApiMaps × List JsError :=
  match fetch with
  | .error e => (maps, [axiosHandler e])
  | .ok resp =>
    match mapGroupResources maps clusterVer resp pref with
    | none => (maps, [foldCrashError])
    | some maps1 => (maps1, [])

/-- Process every version of one group with the group's declared
preferred version. -/
def foldGroupVersions (acc : ApiMaps × List JsError) (clusterVer pref : String) :
    List GroupVersionEntry → ApiMaps × List JsError
  | [] => acc
  | v :: vs =>
    let r := processFetch acc.1 clusterVer (some pref) v.fetch
    foldGroupVersions (r.1, acc.2 ++ r.2) clusterVer pref vs

/-- Process every group of the `/apis` listing (`src/apimap.js`
lines 172-184). -/
def foldGroups (acc : ApiMaps × List JsError) (clusterVer : String) :
    List ApiGroupEntry → ApiMaps × List JsError
  | [] => acc
  | g :: gs => foldGroups (foldGroupVersions acc clusterVer g.preferredGroupVersion g.versions) clusterVer gs

/-- Orchestration `buildAPIMap` (`src/apimap.js` lines 136-193) over an explicit
environment of fetch outcomes.  The JS issues the requests concurrently;
the model serializes the folds in request order (core group first, then
each group's versions in listing order), one admissible interleaving.
Returns the final `apiMaps` state together with how the promise
settles. -/
def buildAPIMap (maps : ApiMaps) (env : ClusterEnv) : ApiMaps × BuildOutcome :=
  match env.versionFetch with
  | .error e => (maps, .fatal (axiosHandler e))
  | .ok gitVersion =>
    let clusterVer := prettifyVersion gitVersion (some 2)
    let acc1 := processFetch maps clusterVer none env.coreFetch
    match env.groupsFetch with
    | .error e => (acc1.1, .fatal (axiosHandler e))
    | .ok groups =>
      let acc2 := foldGroups acc1 clusterVer groups
      if acc2.2 = [] then (acc2.1, .success (getKey acc2.1 clusterVer))
      else (acc2.1, .withErrs acc2.2)

/-- An entry shape that a repeated descriptor step can never displace:
either it carries the response's own group version, or it survived the
first pass (its version extracts, and the preferred-version guard or the
comparator kept it). -/
def keepable (gv ver : String) (pref : Option String) (e : GroupInfo) : Prop :=
  e.version = gv ∨
    (∃ cv, extractVer e.version = some cv ∧
      (prefMatches pref e.version = true ∨
        ∃ c, compareAPIVersions cv ver = some c ∧ ¬c < 0))

/-- The preferred-version scenario of the specification: fold the core
group response, then `apps/v1beta1`, then `apps/v1` (the latter two with
declared preferred version `apps/v1`) into a fresh cache, and look up
`deployment`. -/
def c1Scenario : Option LookupResult :=
  (mapGroupResources [] "1.8" ⟨"v1", [⟨"pods", true⟩]⟩ none).bind fun m1 =>
    (mapGroupResources m1 "1.8" ⟨"apps/v1beta1", [⟨"deployments", true⟩]⟩
        (some "apps/v1")).bind fun m2 =>
      (mapGroupResources m2 "1.8" ⟨"apps/v1", [⟨"deployments", true⟩]⟩
          (some "apps/v1")).map fun m3 =>
        getGroupInfo m3 "1.8" "deployment"

/-- An environment in which version detection, the core fetch and the
`/apis` listing succeed, the `apps/v1beta1` fetch fails with a 503, and
the `apps/v1` fetch succeeds. -/
def envC5 : ClusterEnv :=
  { versionFetch := .ok "v1.8.3-gke.2"
    coreFetch := .ok ⟨"v1", [⟨"pods", true⟩]⟩
    groupsFetch := .ok [⟨"apps/v1",
      [⟨"apps/v1beta1", .error ⟨"fail", some ⟨503, "Service Unavailable", "down"⟩⟩⟩,
       ⟨"apps/v1", .ok ⟨"apps/v1", [⟨"deployments", true⟩]⟩⟩]⟩] }

/-! ## Basic lemmas about the string order and the association-list state -/

/-- The lexicographic character order is irreflexive. -/
lemma charListLt_irrefl : ∀ l : List Char, charListLt l l = false
  | [] => rfl
  | a :: as => by simp [charListLt, charListLt_irrefl as]

/-- JS `s > s` is false. -/
lemma jsStrGt_self (s : String) : jsStrGt s s = false := charListLt_irrefl s.data

/-- JS `s < s` is false. -/
lemma jsStrLt_self (s : String) : jsStrLt s s = false := charListLt_irrefl s.data

/-- JS optional `x > x` is false. -/
lemma jsOptStrGt_self (x : Option String) : jsOptStrGt x x = false := by
  cases x with
  | none => rfl
  | some a => simpa [jsOptStrGt] using jsStrGt_self a

/-- JS optional `x < x` is false. -/
lemma jsOptStrLt_self (x : Option String) : jsOptStrLt x x = false := by
  cases x with
  | none => rfl
  | some a => simpa [jsOptStrLt] using jsStrLt_self a

/-- Reading a key just written returns the written value. -/
lemma getKey_setKey_self {α : Type} (m : List (String × α)) (k : String) (v : α) :
    getKey (setKey m k v) k = some v := by
  induction m with
  | nil => simp [setKey, getKey]
  | cons hd t ih =>
    obtain ⟨k0, w⟩ := hd
    by_cases hk : k0 = k <;> simp [setKey, getKey, hk, ih]

/-- Writing one key leaves every other key unchanged. -/
lemma getKey_setKey_ne {α : Type} (m : List (String × α)) (k q : String) (v : α)
    (h : q ≠ k) : getKey (setKey m k v) q = getKey m q := by
  induction m with
  | nil => simp [setKey, getKey, Ne.symm h]
  | cons hd t ih =>
    obtain ⟨k0, w⟩ := hd
    by_cases hk : k0 = k
    · subst hk
      simp [setKey, getKey, Ne.symm h]
    · simp [setKey, getKey, hk, ih]

/-- Rewriting a key with the value it already holds leaves the object
unchanged (JS object identity of contents). -/
lemma setKey_eq_of_getKey {α : Type} (m : List (String × α)) (k : String) (v : α)
    (h : getKey m k = some v) : setKey m k v = m := by
  induction m with
  | nil => simp [getKey] at h
  | cons hd t ih =>
    obtain ⟨k0, w⟩ := hd
    by_cases hk : k0 = k
    · subst hk
      simp [getKey] at h
      simp [setKey, h]
    · simp [getKey, hk] at h
      simp [setKey, hk, ih h]

/-- A digit character is not a lowercase letter. -/
lemma not_lower_of_digit (c : Char) (h : isDigit09 c = true) : isLowerAZ c = false := by
  simp [isDigit09] at h
  simp [isLowerAZ]
  omega

/-! ## Parsing lemmas -/

/-- A string accepted by the anchored version pattern is parsed
successfully by the unanchored comparator regex. -/
lemma parseVer_of_matchVPat (s : String) (h : matchVPat s = true) :
    ∃ p, parseVer s = some p := by
  unfold matchVPat at h
  cases hs : s.data with
  | nil => rw [hs] at h; simp at h
  | cons c rest =>
    rw [hs] at h
    simp only at h
    by_cases hc : c = 'v'
    · subst hc
      by_cases hd : rest.takeWhile isDigit09 = []
      · simp [hd] at h
      · cases hr : rest with
        | nil => rw [hr] at hd; simp [List.takeWhile_nil] at hd
        | cons r0 rest1 =>
          have hdig : isDigit09 r0 = true := by
            by_contra hdig
            rw [hr] at hd
            simp [List.takeWhile_cons, Bool.eq_false_iff.mpr hdig] at hd
          have hlow : isLowerAZ r0 = false := not_lower_of_digit r0 hdig
          have hss : (parseVer s).isSome := by
            unfold parseVer
            rw [hs, hr]
            simp [List.takeWhile_cons, List.dropWhile_cons, hlow, hdig,
              show isLowerAZ 'v' = true from by decide]
          exact Option.isSome_iff_exists.mp hss
    · simp [hc] at h

/-- A successful `extractVer` result satisfies the anchored version
pattern. -/
lemma matchVPat_of_extractVer (g v : String) (h : extractVer g = some v) :
    matchVPat v = true := by
  unfold extractVer at h
  split at h
  · split at h
    · obtain rfl : (⟨_⟩ : String) = v := Option.some.inj h
      assumption
    · cases h
  · split at h
    · cases h
    · split at h
      · obtain rfl : (⟨_⟩ : String) = v := Option.some.inj h
        assumption
      · cases h
  · cases h

/-- The comparator returns 0 on a token compared with itself, provided
the token parses. -/
lemma compareAPIVersions_self (v : String) (p : VerParts) (hp : parseVer v = some p) :
    compareAPIVersions v v = some 0 := by
  unfold compareAPIVersions
  rw [hp]
  have hba : ¬(p.minorLabel = some "beta" ∧ p.minorLabel = some "alpha") := by
    rintro ⟨h1, h2⟩
    rw [h1] at h2
    exact absurd (Option.some.inj h2) (by decide)
  have hab : ¬(p.minorLabel = some "alpha" ∧ p.minorLabel = some "beta") := by
    rintro ⟨h1, h2⟩
    rw [h1] at h2
    exact absurd (Option.some.inj h2) (by decide)
  simp [jsStrGt_self, jsStrLt_self, jsOptStrGt_self, jsOptStrLt_self, hba, hab]

/-! ## Single-step lemmas about the fold -/

/-- A successful descriptor step either leaves the map unchanged or
writes the current response's group version at the (slash-free)
descriptor name. -/
lemma foldResource_cases {m m1 : ResourceMap} {gv ver : String} {pref : Option String}
    {r : ResourceDesc} (h : foldResource m gv ver pref r = some m1) :
    m1 = m ∨ (r.name.data.contains '/' = false ∧ m1 = setKey m r.name ⟨gv, r.namespaced⟩) := by
  unfold foldResource at h
  by_cases hs : r.name.data.contains '/' = true
  · rw [if_pos hs] at h
    exact Or.inl (Option.some.inj h).symm
  · have hs' : r.name.data.contains '/' = false := Bool.eq_false_iff.mpr hs
    rw [if_neg hs] at h
    cases hget : getKey m r.name with
    | none =>
      rw [hget] at h
      exact Or.inr ⟨hs', (Option.some.inj h).symm⟩
    | some curr =>
      rw [hget] at h
      simp only at h
      cases hev : extractVer curr.version with
      | none => rw [hev] at h; cases h
      | some cv =>
        rw [hev] at h
        simp only at h
        by_cases hpm : prefMatches pref curr.version = true
        · rw [if_pos hpm] at h
          exact Or.inl (Option.some.inj h).symm
        · rw [if_neg hpm] at h
          cases hc : compareAPIVersions cv ver with
          | none => rw [hc] at h; cases h
          | some c =>
            rw [hc] at h
            simp only at h
            by_cases hlt : c < 0
            · rw [if_pos hlt] at h
              exact Or.inr ⟨hs', (Option.some.inj h).symm⟩
            · rw [if_neg hlt] at h
              exact Or.inl (Option.some.inj h).symm

/-- A descriptor step only ever touches the key equal to the descriptor
name. -/
lemma foldResource_getKey_ne {m m1 : ResourceMap} {gv ver : String} {pref : Option String}
    {r : ResourceDesc} {k : String} (h : foldResource m gv ver pref r = some m1)
    (hk : k ≠ r.name) : getKey m1 k = getKey m k := by
  rcases foldResource_cases h with rfl | ⟨-, rfl⟩
  · rfl
  · exact getKey_setKey_ne m r.name k _ hk

/-- A descriptor whose name contains a slash is skipped. -/
lemma foldResource_slash {m : ResourceMap} {gv ver : String} {pref : Option String}
    {r : ResourceDesc} (hs : r.name.data.contains '/' = true) :
    foldResource m gv ver pref r = some m := by
  unfold foldResource
  rw [if_pos hs]

/-- Processing a descriptor whose key holds a keepable entry leaves the
map unchanged. -/
lemma foldResource_keep {m : ResourceMap} {gv ver : String} {pref : Option String}
    {r : ResourceDesc} {e : GroupInfo} (hgv : extractVer gv = some ver)
    (hvv : compareAPIVersions ver ver = some 0)
    (he : getKey m r.name = some e) (hk : keepable gv ver pref e)
    (hs : r.name.data.contains '/' = false) :
    foldResource m gv ver pref r = some m := by
  unfold foldResource
  rw [if_neg (by rw [hs]; simp), he]
  simp only
  rcases hk with hver | ⟨cv, hcv, hrest⟩
  · rw [hver, hgv]
    simp only
    by_cases hpm : prefMatches pref e.version = true
    · rw [hver] at hpm
      rw [if_pos hpm]
    · rw [hver] at hpm
      rw [if_neg hpm, hvv]
      simp
  · rw [hcv]
    simp only
    rcases hrest with hpm | ⟨c, hc, hnc⟩
    · rw [if_pos hpm]
    · by_cases hpm : prefMatches pref e.version = true
      · rw [if_pos hpm]
      · rw [if_neg hpm, hc]
        simp [hnc]

/-- A successful first visit to a descriptor leaves a keepable entry at
its name. -/
lemma foldResource_establishes {m m1 : ResourceMap} {gv ver : String} {pref : Option String}
    {r : ResourceDesc} (h : foldResource m gv ver pref r = some m1)
    (hs : r.name.data.contains '/' = false) :
    ∃ e, getKey m1 r.name = some e ∧ keepable gv ver pref e := by
  unfold foldResource at h
  rw [if_neg (by rw [hs]; simp)] at h
  cases hget : getKey m r.name with
  | none =>
    rw [hget] at h
    obtain rfl := (Option.some.inj h)
    exact ⟨⟨gv, r.namespaced⟩, getKey_setKey_self m r.name _, Or.inl rfl⟩
  | some curr =>
    rw [hget] at h
    simp only at h
    cases hev : extractVer curr.version with
    | none => rw [hev] at h; cases h
    | some cv =>
      rw [hev] at h
      simp only at h
      by_cases hpm : prefMatches pref curr.version = true
      · rw [if_pos hpm] at h
        obtain rfl := (Option.some.inj h)
        exact ⟨curr, hget, Or.inr ⟨cv, hev, Or.inl hpm⟩⟩
      · rw [if_neg hpm] at h
        cases hc : compareAPIVersions cv ver with
        | none => rw [hc] at h; cases h
        | some c =>
          rw [hc] at h
          simp only at h
          by_cases hlt : c < 0
          · rw [if_pos hlt] at h
            obtain rfl := (Option.some.inj h)
            exact ⟨⟨gv, r.namespaced⟩, getKey_setKey_self m r.name _, Or.inl rfl⟩
          · rw [if_neg hlt] at h
            obtain rfl := (Option.some.inj h)
            exact ⟨curr, hget, Or.inr ⟨cv, hev, Or.inr ⟨c, hc, hlt⟩⟩⟩

/-- A descriptor step preserves "some keepable entry sits at key n". -/
lemma foldResource_preserves_keepable {m m1 : ResourceMap} {gv ver : String}
    {pref : Option String} {r : ResourceDesc} {n : String} {e : GroupInfo}
    (h : foldResource m gv ver pref r = some m1)
    (he : getKey m n = some e) (hk : keepable gv ver pref e) :
    ∃ e1, getKey m1 n = some e1 ∧ keepable gv ver pref e1 := by
  rcases foldResource_cases h with rfl | ⟨-, rfl⟩
  · exact ⟨e, he, hk⟩
  · by_cases hn : n = r.name
    · subst hn
      exact ⟨⟨gv, r.namespaced⟩, getKey_setKey_self m r.name _, Or.inl rfl⟩
    · rw [getKey_setKey_ne m r.name n _ hn]
      exact ⟨e, he, hk⟩

/-! ## List-level lemmas about the fold -/

/-- The whole descriptor loop preserves "some keepable entry sits at
key n". -/
lemma foldResources_preserves_keepable {gv ver : String} {pref : Option String}
    {rs : List ResourceDesc} :
    ∀ {m m1 : ResourceMap} {n : String} {e : GroupInfo},
      foldResources m gv ver pref rs = some m1 →
      getKey m n = some e → keepable gv ver pref e →
      ∃ e1, getKey m1 n = some e1 ∧ keepable gv ver pref e1 := by
  induction rs with
  | nil =>
    intro m m1 n e h he hk
    exact ⟨e, (Option.some.inj h) ▸ he, hk⟩
  | cons r rest ih =>
    intro m m1 n e h he hk
    unfold foldResources at h
    cases hst : foldResource m gv ver pref r with
    | none => rw [hst] at h; cases h
    | some m2 =>
      rw [hst] at h
      obtain ⟨e2, he2, hk2⟩ := foldResource_preserves_keepable hst he hk
      exact ih h he2 hk2

/-- After a successful loop over the whole resource list, every
slash-free descriptor name holds a keepable entry. -/
lemma foldResources_establishes {gv ver : String} {pref : Option String}
    {rs : List ResourceDesc} :
    ∀ {m m1 : ResourceMap},
      foldResources m gv ver pref rs = some m1 →
      ∀ r ∈ rs, r.name.data.contains '/' = false →
        ∃ e, getKey m1 r.name = some e ∧ keepable gv ver pref e := by
  induction rs with
  | nil =>
    intro m m1 _ r hr
    exact absurd hr (List.not_mem_nil r)
  | cons r0 rest ih =>
    intro m m1 h r hr hs
    unfold foldResources at h
    cases hst : foldResource m gv ver pref r0 with
    | none => rw [hst] at h; cases h
    | some m2 =>
      rw [hst] at h
      rcases List.mem_cons.mp hr with rfl | hr'
      · obtain ⟨e, he, hk⟩ := foldResource_establishes hst hs
        obtain ⟨e1, he1, hk1⟩ := foldResources_preserves_keepable h he hk
        exact ⟨e1, he1, hk1⟩
      · exact ih h r hr' hs

/-- A state on which every descriptor step is the identity is a fixed
point of the loop. -/
lemma foldResources_fix {m : ResourceMap} {gv ver : String} {pref : Option String}
    {rs : List ResourceDesc} (h : ∀ r ∈ rs, foldResource m gv ver pref r = some m) :
    foldResources m gv ver pref rs = some m := by
  induction rs with
  | nil => rfl
  | cons r rest ih =>
    unfold foldResources
    rw [h r (List.mem_cons_self r rest)]
    exact ih fun r' hr' => h r' (List.mem_cons_of_mem r hr')

/-- Running the descriptor loop a second time from its own result is the
identity. -/
lemma foldResources_idem {m m1 : ResourceMap} {gv ver : String} {pref : Option String}
    {rs : List ResourceDesc} (hgv : extractVer gv = some ver)
    (h : foldResources m gv ver pref rs = some m1) :
    foldResources m1 gv ver pref rs = some m1 := by
  obtain ⟨pv, hpv⟩ := parseVer_of_matchVPat ver (matchVPat_of_extractVer gv ver hgv)
  have hvv := compareAPIVersions_self ver pv hpv
  apply foldResources_fix
  intro r hr
  by_cases hs : r.name.data.contains '/' = true
  · exact foldResource_slash hs
  · have hs' : r.name.data.contains '/' = false := Bool.eq_false_iff.mpr hs
    obtain ⟨e, he, hk⟩ := foldResources_establishes h r hr hs'
    exact foldResource_keep hgv hvv he hk hs'

/-- Keys that no slash-free descriptor of the list is named after are
untouched by the loop. -/
lemma foldResources_frame {gv ver : String} {pref : Option String}
    {rs : List ResourceDesc} :
    ∀ {m m1 : ResourceMap} {k : String},
      foldResources m gv ver pref rs = some m1 →
      (∀ r ∈ rs, r.name.data.contains '/' = false → r.name ≠ k) →
      getKey m1 k = getKey m k := by
  induction rs with
  | nil =>
    intro m m1 k h _
    rw [Option.some.inj h]
  | cons r rest ih =>
    intro m m1 k h hk
    unfold foldResources at h
    cases hst : foldResource m gv ver pref r with
    | none => rw [hst] at h; cases h
    | some m2 =>
      rw [hst] at h
      have h2 : getKey m2 k = getKey m k := by
        rcases foldResource_cases hst with rfl | ⟨hs, rfl⟩
        · rfl
        · exact getKey_setKey_ne m r.name k _
            fun hq => hk r (List.mem_cons_self r rest) hs hq.symm
      rw [ih h fun r' hr' => hk r' (List.mem_cons_of_mem r hr'), h2]

/-- Unfolding equation of the loop on a nonempty list. -/
lemma foldResources_cons (m : ResourceMap) (gv ver : String) (pref : Option String)
    (r : ResourceDesc) (rs : List ResourceDesc) :
    foldResources m gv ver pref (r :: rs)
      = match foldResource m gv ver pref r with
        | none => none
        | some m1 => foldResources m1 gv ver pref rs := rfl

/-- Filtering drops a slash-named descriptor. -/
lemma filter_slash_cons_skip (r : ResourceDesc) (rest : List ResourceDesc)
    (hs : r.name.data.contains '/' = true) :
    (r :: rest).filter (fun x => !(x.name.data.contains '/'))
      = rest.filter fun x => !(x.name.data.contains '/') := by
  rw [List.filter_cons, hs]
  simp

/-- Filtering keeps a slash-free descriptor. -/
lemma filter_slash_cons_keep (r : ResourceDesc) (rest : List ResourceDesc)
    (hs : r.name.data.contains '/' = false) :
    (r :: rest).filter (fun x => !(x.name.data.contains '/'))
      = r :: rest.filter fun x => !(x.name.data.contains '/') := by
  rw [List.filter_cons, hs]
  simp

/-- Skipping the slash-named descriptors does not change the loop's
result. -/
lemma foldResources_filter_slash {gv ver : String} {pref : Option String}
    {rs : List ResourceDesc} :
    ∀ {m : ResourceMap},
      foldResources m gv ver pref (rs.filter fun r => !(r.name.data.contains '/'))
        = foldResources m gv ver pref rs := by
  induction rs with
  | nil => intro m; rfl
  | cons r rest ih =>
    intro m
    by_cases hs : r.name.data.contains '/' = true
    · rw [filter_slash_cons_skip r rest hs, ih, foldResources_cons, foldResource_slash hs]
    · have hs' : r.name.data.contains '/' = false := Bool.eq_false_iff.mpr hs
      rw [filter_slash_cons_keep r rest hs', foldResources_cons, foldResources_cons]
      cases hst : foldResource m gv ver pref r with
      | none => rfl
      | some m2 => exact ih

/-- An entry whose version equals the nonempty preferred argument is
never displaced by the loop (the sticky guard of line 42). -/
lemma foldResources_sticky {gv ver p : String} {rs : List ResourceDesc} :
    ∀ {m m1 : ResourceMap} {n : String} {e : GroupInfo},
      foldResources m gv ver (some p) rs = some m1 →
      getKey m n = some e → e.version = p → p ≠ "" →
      getKey m1 n = some e := by
  induction rs with
  | nil =>
    intro m m1 n e h he _ _
    rw [← Option.some.inj h]
    exact he
  | cons r rest ih =>
    intro m m1 n e h he hv hp
    unfold foldResources at h
    cases hst : foldResource m gv ver (some p) r with
    | none => rw [hst] at h; cases h
    | some m2 =>
      rw [hst] at h
      have he2 : getKey m2 n = some e := by
        by_cases hn : n = r.name
        · subst hn
          unfold foldResource at hst
          by_cases hs : r.name.data.contains '/' = true
          · rw [if_pos hs] at hst
            rw [← Option.some.inj hst]
            exact he
          · rw [if_neg hs] at hst
            rw [he] at hst
            simp only at hst
            cases hev : extractVer e.version with
            | none => rw [hev] at hst; cases hst
            | some cv =>
              rw [hev] at hst
              simp only at hst
              have hpm : prefMatches (some p) e.version = true := by
                simp [prefMatches, hv, hp]
              rw [if_pos hpm] at hst
              rw [← Option.some.inj hst]
              exact he
        · rw [foldResource_getKey_ne hst hn]
          exact he
      exact ih h he2 hv hp

/-- JS optional comparison with an absent left operand is false. -/
lemma jsOptStrGt_none_left (x : Option String) : jsOptStrGt none x = false := by
  cases x <;> rfl

/-- JS optional comparison with an absent right operand is false. -/
lemma jsOptStrGt_none_right (x : Option String) : jsOptStrGt x none = false := by
  cases x <;> rfl

/-- JS optional comparison with an absent left operand is false. -/
lemma jsOptStrLt_none_left (x : Option String) : jsOptStrLt none x = false := by
  cases x <;> rfl

/-- JS optional comparison with an absent right operand is false. -/
lemma jsOptStrLt_none_right (x : Option String) : jsOptStrLt x none = false := by
  cases x <;> rfl

/-- JS optional comparison of two present operands. -/
lemma jsOptStrGt_some_some (a b : String) : jsOptStrGt (some a) (some b) = jsStrGt a b := rfl

/-- JS optional comparison of two present operands. -/
lemma jsOptStrLt_some_some (a b : String) : jsOptStrLt (some a) (some b) = jsStrLt a b := rfl

/-! ## Claim theorems -/

/-- C1, counterexample: the spec's preferred-version scenario does not
end with `deployment` mapped to `apps/v1`.  The third fold leaves the
`apps/v1beta1` entry in place: the entry does not equal the preferred
version, and the comparator returns 0 for `v1beta1` versus `v1` (the
absent minor numeral of `v1` makes both JS comparisons false), so the
line-46 replacement guard fails. -/
theorem c1_counterexample : c1Scenario ≠ some (.info ⟨"apps/v1", true⟩) := by
  decide

/-- C1, amended: the scenario's lookup of `deployment` returns the
mapping `{groupVersion := "apps/v1beta1", namespaced := true}` (found
via the pluralization retry), because the `apps/v1` fold neither matches
the sticky guard (the current entry is not the preferred version) nor
wins the comparison (the comparator ranks `v1beta1` and `v1` equal). -/
theorem c1_actual_scenario : c1Scenario = some (.info ⟨"apps/v1beta1", true⟩) := by
  decide

/-- C2: the comparator compares the extracted major numerals as JS
strings, not as integers.  For `v10` versus `v9` the digit strings
compare `"10" < "9"` lexicographically, so the result is −1 although the
integer difference 10 − 9 is positive — the claim's required sign
correspondence fails. -/
theorem c2_major_compared_as_strings :
    compareAPIVersions "v10" "v9" = some (-1)
      ∧ (-1 : Int) < 0 ∧ (0 : Int) < (10 : Int) - 9 := by
  decide

/-- C3, counterexample: the claim's own examples fail on the code.
`compare("v1beta1", "v1")` is 0 (not LESS: a comparison against the
absent minor numeral is false in JS, so neither branch fires), and
`compare("v1beta10", "v1beta2")` is −1 (not GREATER: the minor digit
strings compare lexicographically, `"10" < "2"`). -/
theorem c3_counterexample :
    compareAPIVersions "v1beta1" "v1" = some 0
      ∧ compareAPIVersions "v1beta10" "v1beta2" = some (-1)
      ∧ ¬((0 : Int) < 0) ∧ ¬((0 : Int) < (-1 : Int)) := by
  decide

/-- C3, amended: when the majors agree and the stability labels do not
decide the order, the comparator compares the minor numerals as JS
strings (lexicographically); if either minor numeral is absent, both JS
comparisons are false and the result is 0 — an absent numeral ranks
equal, not lower. -/
theorem c3_minor_comparison (s1 s2 : String) (p1 p2 : VerParts)
    (h1 : parseVer s1 = some p1) (h2 : parseVer s2 = some p2)
    (hmaj : p1.major = p2.major)
    (hba : ¬(p1.minorLabel = some "beta" ∧ p2.minorLabel = some "alpha"))
    (hab : ¬(p1.minorLabel = some "alpha" ∧ p2.minorLabel = some "beta")) :
    compareAPIVersions s1 s2
      = some (match p1.minorNum, p2.minorNum with
              | some a, some b =>
                if jsStrGt a b then 1 else if jsStrLt a b then -1 else 0
              | _, _ => 0) := by
  unfold compareAPIVersions
  rw [h1, h2]
  simp only
  rw [hmaj, jsStrGt_self, jsStrLt_self, if_neg (by simp), if_neg (by simp),
    if_neg hba, if_neg hab]
  cases hn1 : p1.minorNum with
  | none =>
    rw [jsOptStrGt_none_left, jsOptStrLt_none_left, if_neg (by simp), if_neg (by simp)]
  | some a =>
    cases hn2 : p2.minorNum with
    | none =>
      rw [jsOptStrGt_none_right, jsOptStrLt_none_right, if_neg (by simp), if_neg (by simp)]
    | some b =>
      rw [jsOptStrGt_some_some, jsOptStrLt_some_some]
      show (if jsStrGt a b = true then some (1 : Int)
          else if jsStrLt a b = true then some (-1) else some 0)
        = some (if jsStrGt a b = true then (1 : Int)
            else if jsStrLt a b = true then -1 else 0)
      split_ifs <;> rfl

/-- C3, witness: the amended characterization applied to `v2beta3`
versus `v2beta1` gives GREATER. -/
theorem c3_witness : compareAPIVersions "v2beta3" "v2beta1" = some 1 := by
  have h := c3_minor_comparison "v2beta3" "v2beta1"
    ⟨"v", "2", some "beta", some "3"⟩ ⟨"v", "2", some "beta", some "1"⟩
    (by decide) (by decide) rfl (by decide) (by decide)
  rw [h]
  decide

/-- C8: when two tokens carry the same major numeral (the same digit
string) and one minor label is `beta` while the other is `alpha`, the
comparator ranks the beta token GREATER and the alpha token LESS,
whatever the minor numerals are. -/
theorem c8_beta_outranks_alpha (s1 s2 : String) (p1 p2 : VerParts)
    (h1 : parseVer s1 = some p1) (h2 : parseVer s2 = some p2)
    (hmaj : p1.major = p2.major)
    (hb : p1.minorLabel = some "beta") (ha : p2.minorLabel = some "alpha") :
    compareAPIVersions s1 s2 = some 1 ∧ compareAPIVersions s2 s1 = some (-1) := by
  constructor
  · unfold compareAPIVersions
    rw [h1, h2]
    simp [hmaj, jsStrGt_self, jsStrLt_self, hb, ha]
  · unfold compareAPIVersions
    rw [h1, h2]
    simp [hmaj, jsStrGt_self, jsStrLt_self, hb, ha]

/-- C8, witness: `v1beta1` against `v1alpha3`. -/
theorem c8_witness :
    compareAPIVersions "v1beta1" "v1alpha3" = some 1
      ∧ compareAPIVersions "v1alpha3" "v1beta1" = some (-1) :=
  c8_beta_outranks_alpha "v1beta1" "v1alpha3"
    ⟨"v", "1", some "beta", some "1"⟩ ⟨"v", "1", some "alpha", some "3"⟩
    (by decide) (by decide) rfl rfl rfl

/-- C10: `removeTrailingSlash` returns every input unchanged — the
substring that would drop a trailing slash is computed but never
assigned, so a URL ending in `/` keeps its slash. -/
theorem c10_removeTrailingSlash_identity (url : String) :
    removeTrailingSlash url = url := rfl

/-- C6, counterexample: after folding cluster version `1.8`, looking up
the empty resource name returns `undefined` (the falsiness guard on
line 102 fires), not the whole-map fallback that the claim requires for
every resource name once the cluster version is known. -/
theorem c6_counterexample :
    mapGroupResources [] "1.8" ⟨"v1", [⟨"pods", true⟩]⟩ none
        = some [("1.8", [("pods", ⟨"v1", true⟩)])]
      ∧ getGroupInfo [("1.8", [("pods", ⟨"v1", true⟩)])] "1.8" "" = .absent
      ∧ LookupResult.absent ≠ .all [("pods", ⟨"v1", true⟩)] := by
  decide

/-- C6, amended: for a nonempty cluster version key and a nonempty
resource name, the lookup resolves in order: exact match on the
lower-cased name, then the name with a trailing `s`, then the whole
per-cluster map; a cluster version key without a cache entry (never
folded) yields absent.  An empty cluster version or resource name always
yields absent. -/
theorem c6_lookup_resolution (maps : ApiMaps) (clusterVersion resourceType : String)
    (hcv : clusterVersion ≠ "") (hrt : resourceType ≠ "") :
    (getKey maps clusterVersion = none →
      getGroupInfo maps clusterVersion resourceType = .absent)
    ∧ (∀ m g, getKey maps clusterVersion = some m →
        getKey m (jsToLower resourceType) = some g →
        getGroupInfo maps clusterVersion resourceType = .info g)
    ∧ (∀ m g, getKey maps clusterVersion = some m →
        getKey m (jsToLower resourceType) = none →
        getKey m (jsToLower resourceType ++ "s") = some g →
        getGroupInfo maps clusterVersion resourceType = .info g)
    ∧ (∀ m, getKey maps clusterVersion = some m →
        getKey m (jsToLower resourceType) = none →
        getKey m (jsToLower resourceType ++ "s") = none →
        getGroupInfo maps clusterVersion resourceType = .all m) := by
  refine ⟨?_, ?_, ?_, ?_⟩
  · intro h
    unfold getGroupInfo
    simp [hcv, hrt, h]
  · intro m g hm hg
    unfold getGroupInfo
    simp [hcv, hrt, hm, hg]
  · intro m g hm hg hgs
    unfold getGroupInfo
    simp [hcv, hrt, hm, hg, hgs]
  · intro m hm hg hgs
    unfold getGroupInfo
    simp [hcv, hrt, hm, hg, hgs]

/-- C6, witness: the pluralization branch applied to the lookup of
`Pod` when only `pods` was inserted. -/
theorem c6_witness :
    getGroupInfo [("1.8", [("pods", GroupInfo.mk "v1" true)])] "1.8" "Pod"
      = .info ⟨"v1", true⟩ :=
  (c6_lookup_resolution [("1.8", [("pods", ⟨"v1", true⟩)])] "1.8" "Pod"
      (by decide) (by decide)).2.2.1
    [("pods", ⟨"v1", true⟩)] ⟨"v1", true⟩ (by decide) (by decide) (by decide)

/-- C7: folding the identical discovery response (with the same
preferred-version argument) a second time into the same cluster version
key returns the cache state unchanged: every descriptor either hits the
sticky guard, ties with itself in the comparator, or keeps the entry
that already won the first time. -/
theorem c7_fold_idempotent (maps maps' : ApiMaps) (clusterVer : String)
    (resp : DiscoveryResponse) (pref : Option String)
    (h : mapGroupResources maps clusterVer resp pref = some maps') :
    mapGroupResources maps' clusterVer resp pref = some maps' := by
  unfold mapGroupResources at h ⊢
  cases hev : extractVer resp.groupVersion with
  | none => rw [hev] at h; cases h
  | some ver =>
    rw [hev] at h
    simp only at h ⊢
    cases hf : foldResources ((getKey maps clusterVer).getD []) resp.groupVersion ver
        pref resp.resources with
    | none => rw [hf] at h; cases h
    | some m1 =>
      rw [hf] at h
      have h2 : some (setKey maps clusterVer m1) = some maps' := h
      obtain rfl := Option.some.inj h2
      rw [getKey_setKey_self maps clusterVer m1]
      simp only [Option.getD_some]
      rw [foldResources_idem hev hf]
      simp only [Option.some.injEq]
      exact setKey_eq_of_getKey _ _ _ (getKey_setKey_self maps clusterVer m1)

/-- C7, witness: refolding the core response into its own result. -/
theorem c7_witness :
    mapGroupResources [("1.8", [("pods", GroupInfo.mk "v1" true)])] "1.8"
        ⟨"v1", [⟨"pods", true⟩]⟩ none
      = some [("1.8", [("pods", ⟨"v1", true⟩)])] :=
  c7_fold_idempotent [] [("1.8", [("pods", ⟨"v1", true⟩)])] "1.8"
    ⟨"v1", [⟨"pods", true⟩]⟩ none (by decide)

/-- C4, counterexample: with `deployments` cached at `apps/v1` (the
`apps` group's declared preferred version), folding a response of
another group whose version token ranks GREATER — invoked, as the
orchestration does, with that other group's own preferred version —
displaces the entry.  The line-42 guard compares the cached version to
the *current call's* preferred argument only, so stickiness does not
survive across groups. -/
theorem c4_counterexample :
    mapGroupResources [("1.8", [("deployments", ⟨"apps/v1", true⟩)])] "1.8"
        ⟨"things/v2", [⟨"deployments", true⟩]⟩ (some "things/v2")
      = some [("1.8", [("deployments", ⟨"things/v2", true⟩)])]
      ∧ GroupInfo.mk "things/v2" true ≠ GroupInfo.mk "apps/v1" true := by
  decide

/-- C4, amended: the sticky rule holds exactly when the later fold is
invoked with a preferred-version argument equal to the cached entry's
group version (and nonempty): such a fold leaves the entry unchanged,
whatever the response contains. -/
theorem c4_sticky_needs_matching_pref (maps maps' : ApiMaps) (clusterVer p n : String)
    (resp : DiscoveryResponse) (m : ResourceMap) (e : GroupInfo)
    (hm : getKey maps clusterVer = some m) (he : getKey m n = some e)
    (hv : e.version = p) (hp : p ≠ "")
    (h : mapGroupResources maps clusterVer resp (some p) = some maps') :
    (getKey maps' clusterVer).bind (fun m2 => getKey m2 n) = some e := by
  unfold mapGroupResources at h
  cases hev : extractVer resp.groupVersion with
  | none => rw [hev] at h; cases h
  | some ver =>
    rw [hev] at h
    simp only at h
    rw [hm] at h
    simp only [Option.getD_some] at h
    cases hf : foldResources m resp.groupVersion ver (some p) resp.resources with
    | none => rw [hf] at h; cases h
    | some m1 =>
      rw [hf] at h
      have h2 : some (setKey maps clusterVer m1) = some maps' := h
      obtain rfl := Option.some.inj h2
      rw [getKey_setKey_self maps clusterVer m1]
      exact foldResources_sticky hf he hv hp

/-- C4, witness: a fold whose preferred argument matches the cached
entry leaves it in place. -/
theorem c4_witness :
    (getKey [("1.8", [("deployments", GroupInfo.mk "apps/v1" true)])] "1.8").bind
        (fun m2 => getKey m2 "deployments") = some ⟨"apps/v1", true⟩ :=
  c4_sticky_needs_matching_pref
    [("1.8", [("deployments", ⟨"apps/v1", true⟩)])]
    [("1.8", [("deployments", ⟨"apps/v1", true⟩)])]
    "1.8" "apps/v1" "deployments" ⟨"apps/v2", [⟨"deployments", true⟩]⟩
    [("deployments", ⟨"apps/v1", true⟩)] ⟨"apps/v1", true⟩
    (by decide) (by decide) rfl (by decide) (by decide)

/-- C9: descriptors whose name contains a slash contribute nothing to a
fold — removing them does not change the result — and in particular a
fold never creates or overwrites an entry under the sub-resource key
`pods/log`, and never touches the key `log` unless the response itself
carries a slash-free descriptor literally named `log`. -/
theorem c9_subresource_exclusion (maps : ApiMaps) (clusterVer : String)
    (resp : DiscoveryResponse) (pref : Option String) :
    mapGroupResources maps clusterVer
        ⟨resp.groupVersion, resp.resources.filter fun r => !(r.name.data.contains '/')⟩ pref
      = mapGroupResources maps clusterVer resp pref
    ∧ (∀ maps', mapGroupResources maps clusterVer resp pref = some maps' →
        getKey ((getKey maps' clusterVer).getD []) "pods/log"
          = getKey ((getKey maps clusterVer).getD []) "pods/log")
    ∧ ((∀ r ∈ resp.resources, r.name ≠ "log") →
        ∀ maps', mapGroupResources maps clusterVer resp pref = some maps' →
        getKey ((getKey maps' clusterVer).getD []) "log"
          = getKey ((getKey maps clusterVer).getD []) "log") := by
  refine ⟨?_, ?_, ?_⟩
  · unfold mapGroupResources
    simp only
    cases hev : extractVer resp.groupVersion with
    | none => rfl
    | some ver =>
      simp only
      rw [foldResources_filter_slash]
  · intro maps' h
    unfold mapGroupResources at h
    cases hev : extractVer resp.groupVersion with
    | none => rw [hev] at h; cases h
    | some ver =>
      rw [hev] at h
      simp only at h
      cases hf : foldResources ((getKey maps clusterVer).getD []) resp.groupVersion ver
          pref resp.resources with
      | none => rw [hf] at h; cases h
      | some m1 =>
        rw [hf] at h
        have h2 : some (setKey maps clusterVer m1) = some maps' := h
        obtain rfl := Option.some.inj h2
        rw [getKey_setKey_self maps clusterVer m1]
        simp only [Option.getD_some]
        refine foldResources_frame hf ?_
        intro r _ hs hname
        rw [hname] at hs
        exact absurd hs (by decide)
  · intro hnolog maps' h
    unfold mapGroupResources at h
    cases hev : extractVer resp.groupVersion with
    | none => rw [hev] at h; cases h
    | some ver =>
      rw [hev] at h
      simp only at h
      cases hf : foldResources ((getKey maps clusterVer).getD []) resp.groupVersion ver
          pref resp.resources with
      | none => rw [hf] at h; cases h
      | some m1 =>
        rw [hf] at h
        have h2 : some (setKey maps clusterVer m1) = some maps' := h
        obtain rfl := Option.some.inj h2
        rw [getKey_setKey_self maps clusterVer m1]
        simp only [Option.getD_some]
        exact foldResources_frame hf fun r hr _ => hnolog r hr

/-- C9, witness: folding a response whose list contains `pods/log`
leaves the `pods/log` key absent. -/
theorem c9_witness :
    getKey ((getKey [("1.8", [("pods", GroupInfo.mk "v1" true)])] "1.8").getD [])
        "pods/log"
      = getKey ((getKey ([] : ApiMaps) "1.8").getD []) "pods/log" :=
  (c9_subresource_exclusion [] "1.8"
      ⟨"v1", [⟨"pods/log", true⟩, ⟨"pods", true⟩]⟩ none).2.1
    [("1.8", [("pods", ⟨"v1", true⟩)])] (by decide)

/-- C5: when one group-version fetch fails after version detection
succeeded, every other group-version is still folded into the cache —
the final state contains both `pods` (core) and `deployments`
(`apps/v1`) — but the promise then *rejects* with only the collected
error array (`throw errs`, `src/apimap.js` line 190): the partial map
is not delivered alongside the failures, contradicting both the claim
and the function's own doc comment, which says the promise always
resolves with `(errs, map)`. -/
theorem c5_failures_reject_promise :
    buildAPIMap [] envC5
        = ([("1.8", [("pods", ⟨"v1", true⟩), ("deployments", ⟨"apps/v1", true⟩)])],
           .withErrs [⟨"Service Unavailable", 503, some "down"⟩])
      ∧ ∀ m : Option ResourceMap, (buildAPIMap [] envC5).2 ≠ .success m := by
  have h : buildAPIMap [] envC5
      = ([("1.8", [("pods", ⟨"v1", true⟩), ("deployments", ⟨"apps/v1", true⟩)])],
         .withErrs [⟨"Service Unavailable", 503, some "down"⟩]) := by decide
  refine ⟨h, ?_⟩
  intro m hm
  rw [h] at hm
  simp at hm
